import Mathlib

/-!
Verification of the cross-region export reader custom resource handler, the
bundled concurrency limiter (p-limit), the Glue `GlueStartJobRun` input
validation and the Route53 `RecordSet` constructor validation, against their
natural-language specification.

The minified handler bundle names its functions `M` (handler), `w` (tag
fan-out), `x` (untag fan-out), `P` (set difference) and `z` (limiter factory);
those names are kept below.
-/

namespace SsmReader

/-- A JavaScript error value: its `name` and its `message`. -/
structure JsError where
  name : String
  message : String
deriving DecidableEq

/-- Template-literal rendering of a JavaScript `Error`, as in `` `${i}` ``:
`name: message`. -/
def JsError.render (e : JsError) : String :=
  e.name ++ ": " ++ e.message

/-- CloudFormation custom-resource request type. -/
inductive RequestType
  | Create
  | Update
  | Delete
deriving DecidableEq

/-- `ReaderProps`: `{ imports, prefix, region }`.  JavaScript objects keep
insertion order and have pairwise distinct keys; `imports` is modelled as an
association list.  The source field named after the tag-key stem (`prefix`) is
called `keyPrefix` here. -/
structure ReaderProps where
  imports : List (String × String)
  keyPrefix : String
  region : String
deriving DecidableEq

/-- The request `r` received by the handler: `r.RequestType`,
`r.ResourceProperties.ReaderProps` and `r.OldResourceProperties.ReaderProps`
(the latter is only read by the `Update` branch; the host supplies it there). -/
structure ReaderRequest where
  requestType : RequestType
  readerProps : ReaderProps
  oldReaderProps : ReaderProps
deriving DecidableEq

/-- The remote SSM tagging API, as an oracle fixing the outcome of each call.
The handler only varies the `ResourceId` argument across calls; the remaining
arguments (`ResourceType: "Parameter"`, the tag payload) are constants of the
source and are recorded in the call trace. -/
structure SSM where
  addTagsToResource : String → Except JsError Unit
  removeTagsFromResource : String → Except JsError Unit

/-- One remote call as issued by the handler, with the arguments the source
passes: `addTagsToResource({ResourceId, ResourceType:"Parameter", Tags:[{Key,
Value:"true"}]})` and `removeTagsFromResource({TagKeys:[key], ResourceType:
"Parameter", ResourceId})`. -/
inductive ApiCall
  | addTags (resourceId : String) (tagKey : String) (tagValue : String)
  | removeTags (resourceId : String) (tagKey : String)
deriving DecidableEq

/-- The `ResourceId` argument of a call. -/
def ApiCall.resourceId : ApiCall → String
  | ApiCall.addTags rid _ _ => rid
  | ApiCall.removeTags rid _ => rid

/-- Whether a call is an `addTagsToResource` call. -/
def ApiCall.isAdd : ApiCall → Bool
  | ApiCall.addTags _ _ _ => true
  | ApiCall.removeTags _ _ => false

/-- Whether a call is a `removeTagsFromResource` call. -/
def ApiCall.isRemove : ApiCall → Bool
  | ApiCall.addTags _ _ _ => false
  | ApiCall.removeTags _ _ => true

/-- One unit of the tag fan-out `w`: calls `addTagsToResource` and wraps any
failure as `new Error("Error importing " + s + ": " + i)`. -/
def tagOne (ssm : SSM) (tagKey : String) (rid : String) :
    List ApiCall × Except JsError Unit :=
  ([ApiCall.addTags rid tagKey "true"],
    match ssm.addTagsToResource rid with
    | Except.ok _ => Except.ok ()
    | Except.error i =>
        Except.error
          { name := "Error"
            message := "Error importing " ++ rid ++ ": " ++ i.render })

/-- One unit of the untag fan-out `x`: calls `removeTagsFromResource`; an error
named `InvalidResourceId` is swallowed (`return`), any other failure is wrapped
as `new Error("Error releasing import " + s + ": " + i)`. -/
def untagOne (ssm : SSM) (tagKey : String) (rid : String) :
    List ApiCall × Except JsError Unit :=
  ([ApiCall.removeTags rid tagKey],
    match ssm.removeTagsFromResource rid with
    | Except.ok _ => Except.ok ()
    | Except.error i =>
        if i.name = "InvalidResourceId" then Except.ok ()
        else
          Except.error
            { name := "Error"
              message := "Error releasing import " ++ rid ++ ": " ++ i.render })

/-- `Promise.all(e.map(s => limiter(...)))`: every element of the list is
submitted, so every remote call is issued; the overall result is the first
rejection in submission order, or success when every operation succeeded. -/
def fanOut (op : String → List ApiCall × Except JsError Unit) :
    List String → List ApiCall × Except JsError Unit
  | [] => ([], Except.ok ())
  | r :: rs =>
      let hd := op r
      let tl := fanOut op rs
      (hd.1 ++ tl.1,
        match hd.2 with
        | Except.error e => Except.error e
        | Except.ok _ => tl.2)

/-- The tag fan-out `w(i, e, t)`. -/
def w (ssm : SSM) (refs : List String) (tagKey : String) :
    List ApiCall × Except JsError Unit :=
  fanOut (tagOne ssm tagKey) refs

/-- The untag fan-out `x(i, e, t)`. -/
def x (ssm : SSM) (refs : List String) (tagKey : String) :
    List ApiCall × Except JsError Unit :=
  fanOut (untagOne ssm tagKey) refs

/-- `P(r, e) = r.filter(t => !e.includes(t))`: the set difference the `Update`
branch applies to the key lists of the two ImportSets. -/
def P (r e : List String) : List String :=
  r.filter (fun t => !e.contains t)

/-- `Object.keys` of an ImportSet: the keys in insertion order. -/
def keys (m : List (String × String)) : List String :=
  m.map Prod.fst

/-- The tag key `s` computed by the handler. -/
def tagKeyOf (r : ReaderRequest) : String :=
  "aws-cdk:strong-ref:" ++ r.readerProps.keyPrefix

/-- The handler `M`.  It returns the list of remote calls issued (in issue
order) together with the invocation outcome: `some t` models the value
`{Data: t}`, `none` models the `Delete` branch returning no data, and
`Except.error` models the rethrown exception.  The `Update` branch awaits `x`
(when the untag list is nonempty) before invoking `w`, so a failed untag phase
never reaches the tag phase. -/
def M (ssm : SSM) (r : ReaderRequest) :
    List ApiCall × Except JsError (Option (List (String × String))) :=
  let t := r.readerProps.imports
  let o := keys t
  let s := tagKeyOf r
  match r.requestType with
  | RequestType.Create =>
      let res := w ssm o s
      (res.1, res.2.map (fun _ => some t))
  | RequestType.Update =>
      let n := r.oldReaderProps.imports
      let c := P o (keys n)
      let a := P (keys n) o
      let untagRes := if 0 < a.length then x ssm a s else ([], Except.ok ())
      match untagRes.2 with
      | Except.error u => (untagRes.1, Except.error u)
      | Except.ok _ =>
          let tagRes := w ssm c s
          (untagRes.1 ++ tagRes.1, tagRes.2.map (fun _ => some t))
  | RequestType.Delete =>
      let res := x ssm o s
      (res.1, res.2.map (fun _ => none))

/-- The concurrency cap each fan-out passes to the limiter factory: `S(10)`. -/
def fanoutConcurrency : Nat := 10

/-- An SSM oracle on which every call succeeds. -/
def okSSM : SSM :=
  { addTagsToResource := fun _ => Except.ok ()
    removeTagsFromResource := fun _ => Except.ok () }

/-- The Create request of the spec scenario: ImportSet `{a: "r1", b: "r2"}`. -/
def createReq : ReaderRequest :=
  { requestType := RequestType.Create
    readerProps :=
      { imports := [("a", "r1"), ("b", "r2")], keyPrefix := "p", region := "us-east-1" }
    oldReaderProps :=
      { imports := [], keyPrefix := "p", region := "us-east-1" } }

/-- An Update request: prior `{a: "r1", b: "r2"}`, current `{a: "r1", c: "r3"}`. -/
def updReq : ReaderRequest :=
  { requestType := RequestType.Update
    readerProps :=
      { imports := [("a", "r1"), ("c", "r3")], keyPrefix := "p", region := "us-east-1" }
    oldReaderProps :=
      { imports := [("a", "r1"), ("b", "r2")], keyPrefix := "p", region := "us-east-1" } }

/-- An SSM oracle with one failing tag target and untag outcomes exercising
both the swallowed and the rethrown path. -/
def failSSM : SSM :=
  { addTagsToResource := fun rid =>
      if rid = "b" then Except.error { name := "AccessDenied", message := "nope" }
      else Except.ok ()
    removeTagsFromResource := fun rid =>
      if rid = "g" then Except.error { name := "InvalidResourceId", message := "gone" }
      else Except.error { name := "Throttling", message := "slow" } }

end SsmReader

/-- A JavaScript number, as far as the validations under scrutiny observe it:
a finite value (rationals model every finite double the checks distinguish),
positive or negative infinity, or `NaN`. -/
inductive JSNumber
  | val (q : ℚ)
  | posInf
  | negInf
  | nan
deriving DecidableEq

/-- `Number.isInteger`. -/
def JSNumber.isInteger : JSNumber → Bool
  | JSNumber.val q => q.den == 1
  | _ => false

/-- JavaScript `> 0`: false for `NaN`. -/
def JSNumber.gtZero : JSNumber → Bool
  | JSNumber.val q => decide (0 < q)
  | JSNumber.posInf => true
  | JSNumber.negInf => false
  | JSNumber.nan => false

/-- JavaScript `< 1`: false for `NaN`. -/
def JSNumber.ltOne : JSNumber → Bool
  | JSNumber.val q => decide (q < 1)
  | JSNumber.posInf => false
  | JSNumber.negInf => true
  | JSNumber.nan => false

/-- JavaScript truthiness of a number: `0` and `NaN` are falsy. -/
def JSNumber.truthy : JSNumber → Bool
  | JSNumber.val q => !(q == 0)
  | JSNumber.posInf => true
  | JSNumber.negInf => true
  | JSNumber.nan => false

/-- String rendering of a number, for interpolated error messages. -/
def JSNumber.render : JSNumber → String
  | JSNumber.val q => toString q
  | JSNumber.posInf => "Infinity"
  | JSNumber.negInf => "-Infinity"
  | JSNumber.nan => "NaN"

namespace PLimit

/-- The guard of the limiter factory `z`:
`if (!((Number.isInteger(r) || r === 1/0) && r > 0)) throw new TypeError(...)`. -/
def concurrencyCheck (r : JSNumber) : Except String Unit :=
  if !((r.isInteger || r == JSNumber.posInf) && r.gtZero) then
    Except.error "Expected `concurrency` to be a number from 1 and up"
  else Except.ok ()

/-- A successfully constructed limiter has a concurrency of either a positive
integer or `Infinity` (unbounded). -/
inductive Limit
  | bounded (n : Nat)
  | unbounded
deriving DecidableEq

/-- The admission gate `t < r` evaluated by the post-submission microtask:
with `r === Infinity` every comparison succeeds. -/
def canAdmit : Limit → Int → Bool
  | Limit.bounded n, t => decide (t < (n : Int))
  | Limit.unbounded, _ => true

/-- The observable state of one limiter instance: the FIFO queue `e` of
pending work items (identified by submission number), the identities of the
items whose execution has started but not settled, the counter `t`
(`activeCount`), the next submission number, the start history (most recent
first), and the settled futures with the outcome each delivered. -/
structure LimiterState where
  queue : List Nat
  running : List Nat
  activeCount : Int
  nextId : Nat
  started : List Nat
  results : List (Nat × Bool)
deriving DecidableEq

/-- A fresh limiter: empty queue, `activeCount = 0`. -/
def initState : LimiterState :=
  { queue := [], running := [], activeCount := 0, nextId := 0, started := [], results := [] }

/-- `o()` together with the settlement that triggers it: the settled item `i`
delivers its own outcome to its own future, `t` is decremented, and, if the
queue is nonempty, its head is dequeued and started (`s` increments `t`).
The source runs this whether the item resolved or rejected (`try { await m }
catch {}` then `o()`). -/
def finishStep (outcome : Bool) (i : Nat) (st : LimiterState) : LimiterState :=
  match st.queue with
  | [] =>
      { st with
          running := st.running.erase i
          activeCount := st.activeCount - 1
          results := (i, outcome) :: st.results }
  | y :: rest =>
      { st with
          queue := rest
          running := y :: st.running.erase i
          activeCount := st.activeCount - 1 + 1
          started := y :: st.started
          results := (i, outcome) :: st.results }

/-- One scheduling turn of a limiter instance.  `outcomes` fixes each work
item's own result (resolve or reject).
* `submit`: `run` enqueues the item and returns immediately.
* `start`: the post-submission microtask finds `t < r` and a nonempty queue
  and starts the queue head.
* `finish`: a running item settles; see `finishStep`.
* `clear`: `clearQueue()` discards every pending item. -/
inductive Step (lim : Limit) (outcomes : Nat → Bool) :
    LimiterState → LimiterState → Prop
  | submit (st : LimiterState) :
      Step lim outcomes st
        { st with queue := st.queue ++ [st.nextId], nextId := st.nextId + 1 }
  | start (st : LimiterState) (i : Nat) (rest : List Nat)
      (hq : st.queue = i :: rest) (h : canAdmit lim st.activeCount = true) :
      Step lim outcomes st
        { st with
            queue := rest
            running := i :: st.running
            activeCount := st.activeCount + 1
            started := i :: st.started }
  | finish (st : LimiterState) (i : Nat) (hi : i ∈ st.running) :
      Step lim outcomes st (finishStep (outcomes i) i st)
  | clear (st : LimiterState) :
      Step lim outcomes st { st with queue := [] }

/-- Execution fragments of one limiter instance. -/
def Reaches (lim : Limit) (outcomes : Nat → Bool) :
    LimiterState → LimiterState → Prop :=
  Relation.ReflTransGen (Step lim outcomes)

/-- The states one limiter instance can be in. -/
def Reachable (lim : Limit) (outcomes : Nat → Bool) (st : LimiterState) : Prop :=
  Reaches lim outcomes initState st

/-- `i` sits strictly in front of `j` in the list `l`. -/
def listBefore (i j : Nat) (l : List Nat) : Prop :=
  ∃ l1 l2 l3, l = l1 ++ i :: l2 ++ j :: l3

/-- Structural facts every reachable limiter state satisfies. -/
structure WF (st : LimiterState) : Prop where
  queue_lt : ∀ i ∈ st.queue, i < st.nextId
  started_lt : ∀ i ∈ st.started, i < st.nextId
  queue_nodup : st.queue.Nodup
  queue_started_disjoint : ∀ i ∈ st.queue, i ∉ st.started
  active_eq : st.activeCount = st.running.length

/-- Invariant threaded through the FIFO-admission proof: `j` is a known
submission, and either `i` already started, or `i` still precedes `j` in the
queue, or `j` was discarded and can never start. -/
def FifoInv (i j : Nat) (st : LimiterState) : Prop :=
  WF st ∧ j < st.nextId ∧
    (i ∈ st.started ∨ listBefore i j st.queue ∨ (j ∉ st.queue ∧ j ∉ st.started))

/-- Invariant giving the `activeCount` bounds: the counter equals the number
of running items and respects a bounded limit. -/
def ActiveInv (lim : Limit) (st : LimiterState) : Prop :=
  st.activeCount = st.running.length ∧
    ∀ n, lim = Limit.bounded n → st.activeCount ≤ (n : Int)

/-- Demo trace states (limit 1, all outcomes succeed):
submit 0, submit 1, start 0, settle 0 (which starts 1). -/
def demoS1 : LimiterState :=
  { queue := [0], running := [], activeCount := 0, nextId := 1, started := [], results := [] }

def demoS2 : LimiterState :=
  { queue := [0, 1], running := [], activeCount := 0, nextId := 2, started := [], results := [] }

def demoS3 : LimiterState :=
  { queue := [1], running := [0], activeCount := 1, nextId := 2, started := [0], results := [] }

def demoS4 : LimiterState :=
  { queue := [], running := [1], activeCount := 1, nextId := 2, started := [1, 0],
    results := [(0, true)] }

end PLimit

namespace GlueTask

/-- `Option.isSome`-style integer test lifted to the optional
`numberOfWorkers` value (the short-circuit makes the `none` value irrelevant). -/
def optIsInteger : Option JSNumber → Bool
  | some m => m.isInteger
  | none => false

/-- `numberOfWorkers < 1` lifted to the optional value. -/
def optLtOne : Option JSNumber → Bool
  | some m => m.ltOne
  | none => false

/-- JavaScript truthiness of the optional `numberOfWorkers` value:
`undefined`, `0` and `NaN` are falsy. -/
def optTruthy : Option JSNumber → Bool
  | some m => m.truthy
  | none => false

/-- The `numberOfWorkers` validation of the `GlueStartJobRun` constructor
(start-job-run.ts lines 90 to 96): `props.numberOfWorkers &&
!Token.isUnresolved(props.numberOfWorkers) &&
(!Number.isInteger(props.numberOfWorkers) || props.numberOfWorkers < 1)`.
`isUnresolvedToken` is the oracle for `Token.isUnresolved`. -/
def numberOfWorkersValidation (n : Option JSNumber) (isUnresolvedToken : Bool) :
    Except String Unit :=
  if optTruthy n && !isUnresolvedToken && (!optIsInteger n || optLtOne n) then
    Except.error "`numberOfWorkers` must be an integer greater than 0"
  else Except.ok ()

end GlueTask

namespace Route53

/-- The throw sites of the `RecordSet` constructor validations up to and
including the routing-policy count check, each carrying the data interpolated
into its message. -/
inductive RecordSetError
  | weightRange (rendered : String)
  | setIdentifierLength (len : Nat)
  | setIdentifierSimple
  | multiValueAlias
  | onlyOneRoutingPolicy
deriving DecidableEq

/-- The exact message string each throw site produces. -/
def RecordSetError.message : RecordSetError → String
  | RecordSetError.weightRange rendered =>
      "weight must be between 0 and 255 inclusive, got: " ++ rendered
  | RecordSetError.setIdentifierLength len =>
      "setIdentifier must be between 1 and 128 characters long, got: " ++ toString len
  | RecordSetError.setIdentifierSimple =>
      "setIdentifier can only be specified for non-simple routing policies"
  | RecordSetError.multiValueAlias =>
      "multiValueAnswer cannot be specified for alias record"
  | RecordSetError.onlyOneRoutingPolicy =>
      "Only one of region, weight, multiValueAnswer, cidrRoutingConfig or geoLocation can be defined"

/-- The `RecordSetProps` fields the validations at lines 351 to 380 read.
`geoLocation` and `cidrRoutingConfig` are objects (always truthy when
present), so only their presence matters here; `targetHasAlias` models
`props.target.aliasTarget` being set. -/
structure RecordSetProps where
  geoLocation : Option Unit
  region : Option String
  weight : Option JSNumber
  multiValueAnswer : Option Bool
  cidrRoutingConfig : Option Unit
  setIdentifier : Option String
  targetHasAlias : Bool
deriving DecidableEq

/-- Truthiness of `props.weight` (`0` and `NaN` are falsy, `undefined` absent). -/
def weightTruthy (p : RecordSetProps) : Bool :=
  match p.weight with
  | some m => m.truthy
  | none => false

/-- JavaScript `props.weight < 0`. -/
def weightLtZero (p : RecordSetProps) : Bool :=
  match p.weight with
  | some (JSNumber.val q) => decide (q < 0)
  | some JSNumber.negInf => true
  | _ => false

/-- JavaScript `props.weight > 255`. -/
def weightGtMax (p : RecordSetProps) : Bool :=
  match p.weight with
  | some (JSNumber.val q) => decide (255 < q)
  | some JSNumber.posInf => true
  | _ => false

/-- Rendering of `props.weight` for the interpolated message. -/
def weightRendered (p : RecordSetProps) : String :=
  match p.weight with
  | some m => m.render
  | none => "undefined"

/-- Truthiness of `props.setIdentifier` (the empty string is falsy). -/
def setIdentifierTruthy (p : RecordSetProps) : Bool :=
  match p.setIdentifier with
  | some s => !(s == "")
  | none => false

/-- `props.setIdentifier.length`, read only when truthy. -/
def setIdentifierLen (p : RecordSetProps) : Nat :=
  match p.setIdentifier with
  | some s => s.length
  | none => 0

/-- Truthiness of `props.region` (the empty string is falsy). -/
def regionTruthy (p : RecordSetProps) : Bool :=
  match p.region with
  | some s => !(s == "")
  | none => false

/-- Truthiness of `props.multiValueAnswer`. -/
def mvaTruthy (p : RecordSetProps) : Bool :=
  match p.multiValueAnswer with
  | some b => b
  | none => false

/-- `[props.geoLocation, props.region, props.weight, props.multiValueAnswer,
props.cidrRoutingConfig].filter((variable) => variable !== undefined).length`. -/
def nonSimpleRoutingPolicies (p : RecordSetProps) : Nat :=
  ([p.geoLocation.isSome, p.region.isSome, p.weight.isSome,
    p.multiValueAnswer.isSome, p.cidrRoutingConfig.isSome].filter (fun b => b)).length

/-- The validation sequence of the `RecordSet` constructor (part_002 lines
351 to 380), in source order, ending at the routing-policy count check. -/
def recordSetValidation (p : RecordSetProps) : Except RecordSetError Unit :=
  if weightTruthy p && (weightLtZero p || weightGtMax p) then
    Except.error (RecordSetError.weightRange (weightRendered p))
  else if setIdentifierTruthy p &&
      (setIdentifierLen p < 1 || 128 < setIdentifierLen p) then
    Except.error (RecordSetError.setIdentifierLength (setIdentifierLen p))
  else if setIdentifierTruthy p && p.weight == none && !p.geoLocation.isSome &&
      !regionTruthy p && !mvaTruthy p && !p.cidrRoutingConfig.isSome then
    Except.error RecordSetError.setIdentifierSimple
  else if mvaTruthy p && p.targetHasAlias then
    Except.error RecordSetError.multiValueAlias
  else if 1 < nonSimpleRoutingPolicies p then
    Except.error RecordSetError.onlyOneRoutingPolicy
  else Except.ok ()

/-- A props value with two routing policies defined but an out-of-range
weight: `weight: 300, region: "us-east-1"`. -/
def badWeightProps : RecordSetProps :=
  { geoLocation := none
    region := some "us-east-1"
    weight := some (JSNumber.val 300)
    multiValueAnswer := none
    cidrRoutingConfig := none
    setIdentifier := none
    targetHasAlias := false }

end Route53

namespace SsmReader

theorem fanOut_fst (op : String → List ApiCall × Except JsError Unit)
    (rs : List String) :
    (fanOut op rs).1 = (rs.map (fun r => (op r).1)).flatten := by
  induction rs with
  | nil => rfl
  | cons r rs ih => simp [fanOut, ih]

theorem fanOut_ok_iff (op : String → List ApiCall × Except JsError Unit)
    (rs : List String) :
    (fanOut op rs).2 = Except.ok () ↔ ∀ r ∈ rs, (op r).2 = Except.ok () := by
  induction rs with
  | nil => simp [fanOut]
  | cons r rs ih =>
    simp only [fanOut, List.mem_cons]
    cases h : (op r).2 with
    | ok u =>
      cases u
      constructor
      · intro hall r2 hr2
        rcases hr2 with hr2 | hr2
        · rw [hr2]; exact h
        · exact ih.mp hall r2 hr2
      · intro hall
        exact ih.mpr (fun r2 hr2 => hall r2 (Or.inr hr2))
    | error e =>
      constructor
      · intro hc; exact absurd hc (by simp)
      · intro hall
        have := hall r (Or.inl rfl)
        rw [h] at this
        exact absurd this (by simp)

theorem fanOut_error_of_mem (op : String → List ApiCall × Except JsError Unit)
    (rs : List String) (r : String) (hr : r ∈ rs) (e : JsError)
    (he : (op r).2 = Except.error e) :
    ∃ e2, (fanOut op rs).2 = Except.error e2 := by
  cases hfo : (fanOut op rs).2 with
  | ok u =>
    cases u
    have := (fanOut_ok_iff op rs).mp hfo r hr
    rw [this] at he
    exact absurd he (by simp)
  | error e2 => exact ⟨e2, rfl⟩

theorem w_fst (ssm : SSM) (rs : List String) (k : String) :
    (w ssm rs k).1 = rs.map (fun rid => ApiCall.addTags rid k "true") := by
  induction rs with
  | nil => rfl
  | cons r rs ih => simpa [w, fanOut, tagOne] using ih

theorem x_fst (ssm : SSM) (rs : List String) (k : String) :
    (x ssm rs k).1 = rs.map (fun rid => ApiCall.removeTags rid k) := by
  induction rs with
  | nil => rfl
  | cons r rs ih => simpa [x, fanOut, untagOne] using ih

theorem untag_cond_eq (ssm : SSM) (a : List String) (k : String) :
    (if 0 < a.length then x ssm a k else ([], Except.ok ())) = x ssm a k := by
  cases a with
  | nil => simp [x, fanOut]
  | cons r rs => simp

/-- Trace of the `Update` branch: the untag calls for the key difference
prior-minus-current come first, followed either by the tag calls for the key
difference current-minus-prior, or nothing when the untag phase rejected. -/
theorem M_update_trace (ssm : SSM) (r : ReaderRequest)
    (h : r.requestType = RequestType.Update) :
    ∃ tailCalls,
      (M ssm r).1 =
        (P (keys r.oldReaderProps.imports) (keys r.readerProps.imports)).map
          (fun rid => ApiCall.removeTags rid (tagKeyOf r)) ++ tailCalls ∧
      (tailCalls =
          (P (keys r.readerProps.imports) (keys r.oldReaderProps.imports)).map
            (fun rid => ApiCall.addTags rid (tagKeyOf r) "true") ∨
        tailCalls = []) := by
  unfold M
  rw [h]
  simp only [untag_cond_eq]
  cases hx : (x ssm (P (keys r.oldReaderProps.imports) (keys r.readerProps.imports))
      (tagKeyOf r)).2 with
  | error u =>
    refine ⟨[], ?_, Or.inr rfl⟩
    simp [hx, x_fst]
  | ok u =>
    cases u
    refine ⟨(P (keys r.readerProps.imports) (keys r.oldReaderProps.imports)).map
      (fun rid => ApiCall.addTags rid (tagKeyOf r) "true"), ?_, Or.inl rfl⟩
    simp [hx, x_fst, w_fst]

theorem get_phase_lt {α : Type} (l us ts : List α) (hl : l = us ++ ts)
    (pA pR : α → Bool)
    (hu : ∀ e ∈ us, pR e = true ∧ pA e = false)
    (ht : ∀ e ∈ ts, pA e = true ∧ pR e = false)
    (i j : Nat) (hi : i < l.length) (hj : j < l.length)
    (hA : pA (l.get ⟨i, hi⟩) = true)
    (hR : pR (l.get ⟨j, hj⟩) = true) : j < i := by
  subst hl
  have hilen : us.length ≤ i := by
    by_contra hlt
    push_neg at hlt
    have hget : (us ++ ts).get ⟨i, hi⟩ = us.get ⟨i, hlt⟩ := by
      simp only [List.get_eq_getElem]
      exact List.getElem_append_left hlt
    have hmem : us.get ⟨i, hlt⟩ ∈ us := List.get_mem us i hlt
    have := (hu _ hmem).2
    rw [hget, this] at hA
    exact absurd hA (by simp)
  have hjlen : j < us.length := by
    by_contra hge
    push_neg at hge
    have hjt : j - us.length < ts.length := by
      have := hj
      simp only [List.length_append] at this
      omega
    have hget : (us ++ ts).get ⟨j, hj⟩ = ts.get ⟨j - us.length, hjt⟩ := by
      simp only [List.get_eq_getElem]
      exact List.getElem_append_right hge
    have hmem : ts.get ⟨j - us.length, hjt⟩ ∈ ts := List.get_mem ts _ hjt
    have := (ht _ hmem).2
    rw [hget, this] at hR
    exact absurd hR (by simp)
  omega

/-- C1 counterexample: on Create with ImportSet `{a: "r1", b: "r2"}` the
handler issues tag calls for exactly the identifiers `a` and `b` — the keys of
the ImportSet — and for neither `r1` nor `r2`, refuting the claim that the
remote calls carry the ImportSet's values. -/
theorem create_tags_keys_not_values :
    (M okSSM createReq).1.map ApiCall.resourceId = ["a", "b"] ∧
    "r1" ∉ (M okSSM createReq).1.map ApiCall.resourceId ∧
    "r2" ∉ (M okSSM createReq).1.map ApiCall.resourceId := by
  refine ⟨rfl, ?_, ?_⟩ <;> decide

/-- C1 (amended): the reconciler computes the items to tag and untag by set
difference over the ImportSets' keys (the logical names), and every remote
call is issued with a key of the corresponding ImportSet: Create tags exactly
the current keys, Delete untags exactly the current keys, and Update untags
`P(oldKeys, currentKeys)` and then tags `P(currentKeys, oldKeys)` (the tag
phase being absent when the untag phase rejected). -/
theorem reconciler_diff_over_keys (ssm : SSM) (r : ReaderRequest) :
    (r.requestType = RequestType.Create →
      (M ssm r).1 = (keys r.readerProps.imports).map
        (fun rid => ApiCall.addTags rid (tagKeyOf r) "true")) ∧
    (r.requestType = RequestType.Delete →
      (M ssm r).1 = (keys r.readerProps.imports).map
        (fun rid => ApiCall.removeTags rid (tagKeyOf r))) ∧
    (r.requestType = RequestType.Update →
      ∃ tailCalls,
        (M ssm r).1 =
          (P (keys r.oldReaderProps.imports) (keys r.readerProps.imports)).map
            (fun rid => ApiCall.removeTags rid (tagKeyOf r)) ++ tailCalls ∧
        (tailCalls =
            (P (keys r.readerProps.imports) (keys r.oldReaderProps.imports)).map
              (fun rid => ApiCall.addTags rid (tagKeyOf r) "true") ∨
          tailCalls = [])) := by
  refine ⟨?_, ?_, fun h => M_update_trace ssm r h⟩
  · intro h
    unfold M
    rw [h]
    cases hw : (w ssm (keys r.readerProps.imports) (tagKeyOf r)).2 <;>
      simp [← w_fst ssm (keys r.readerProps.imports) (tagKeyOf r), hw]
  · intro h
    unfold M
    rw [h]
    cases hx : (x ssm (keys r.readerProps.imports) (tagKeyOf r)).2 <;>
      simp [← x_fst ssm (keys r.readerProps.imports) (tagKeyOf r), hx]

/-- Witness for C1 (amended), at the Update request from prior
`{a: r1, b: r2}` to current `{a: r1, c: r3}`. -/
theorem reconciler_diff_over_keys_witness :
    ∃ tailCalls,
      (M okSSM updReq).1 =
        (P (keys updReq.oldReaderProps.imports) (keys updReq.readerProps.imports)).map
          (fun rid => ApiCall.removeTags rid (tagKeyOf updReq)) ++ tailCalls ∧
      (tailCalls =
          (P (keys updReq.readerProps.imports) (keys updReq.oldReaderProps.imports)).map
            (fun rid => ApiCall.addTags rid (tagKeyOf updReq) "true") ∨
        tailCalls = []) :=
  (reconciler_diff_over_keys okSSM updReq).2.2 rfl

/-- C2: on Update, every untag call of the invocation precedes every tag call:
if position `i` of the issued-call trace is an `addTagsToResource` call and
position `j` is a `removeTagsFromResource` call, then `j < i`.  The handler
awaits the whole untag fan-out (and aborts on its failure) before the tag
fan-out starts. -/
theorem update_untags_before_tagging (ssm : SSM) (r : ReaderRequest)
    (h : r.requestType = RequestType.Update) (i j : Nat)
    (hi : i < (M ssm r).1.length) (hj : j < (M ssm r).1.length)
    (hA : (((M ssm r).1).get ⟨i, hi⟩).isAdd = true)
    (hR : (((M ssm r).1).get ⟨j, hj⟩).isRemove = true) : j < i := by
  obtain ⟨tailCalls, htr, htail⟩ := M_update_trace ssm r h
  refine get_phase_lt (M ssm r).1 _ tailCalls htr ApiCall.isAdd ApiCall.isRemove
    ?_ ?_ i j hi hj hA hR
  · intro e he
    simp only [List.mem_map] at he
    obtain ⟨rid, _, hrid⟩ := he
    subst hrid
    simp [ApiCall.isAdd, ApiCall.isRemove]
  · intro e he
    rcases htail with htail | htail <;> subst htail
    · simp only [List.mem_map] at he
      obtain ⟨rid, _, hrid⟩ := he
      subst hrid
      simp [ApiCall.isAdd, ApiCall.isRemove]
    · simp at he

/-- Witness for C2: in the Update from `{a, b}` to `{a, c}`, the untag call
for `b` (position 0) precedes the tag call for `c` (position 1). -/
theorem update_untags_before_tagging_witness : (0 : Nat) < 1 :=
  update_untags_before_tagging okSSM updReq rfl 1 0 (by decide) (by decide)
    (by decide) (by decide)

/-- C3: an untag failure named `InvalidResourceId` (the reference no longer
exists) is swallowed and treated as success; any other untag failure, and any
tag failure, is wrapped in an error whose message names the failing reference
identifier; and such a failure for a reference in the fan-out of a Create
(tag) or Delete (untag) makes the whole invocation reject. -/
theorem untag_absent_swallowed_other_failures_wrapped (ssm : SSM) (k rid : String) :
    ((∃ e, ssm.removeTagsFromResource rid = Except.error e ∧
        e.name = "InvalidResourceId") →
      (untagOne ssm k rid).2 = Except.ok ()) ∧
    (∀ e, ssm.removeTagsFromResource rid = Except.error e →
      e.name ≠ "InvalidResourceId" →
      (untagOne ssm k rid).2 = Except.error
        { name := "Error"
          message := "Error releasing import " ++ rid ++ ": " ++ e.render }) ∧
    (∀ e, ssm.addTagsToResource rid = Except.error e →
      (tagOne ssm k rid).2 = Except.error
        { name := "Error"
          message := "Error importing " ++ rid ++ ": " ++ e.render }) ∧
    (∀ r : ReaderRequest, r.requestType = RequestType.Create →
      rid ∈ keys r.readerProps.imports →
      ∀ e, ssm.addTagsToResource rid = Except.error e →
      ∃ e2, (M ssm r).2 = Except.error e2) ∧
    (∀ r : ReaderRequest, r.requestType = RequestType.Delete →
      rid ∈ keys r.readerProps.imports →
      ∀ e, ssm.removeTagsFromResource rid = Except.error e →
      e.name ≠ "InvalidResourceId" →
      ∃ e2, (M ssm r).2 = Except.error e2) := by
  refine ⟨?_, ?_, ?_, ?_, ?_⟩
  · rintro ⟨e, he, hname⟩
    simp [untagOne, he, hname]
  · intro e he hname
    simp [untagOne, he, hname]
  · intro e he
    simp [tagOne, he]
  · intro r hrt hmem e he
    have hop : (tagOne ssm (tagKeyOf r) rid).2 = Except.error
        { name := "Error"
          message := "Error importing " ++ rid ++ ": " ++ e.render } := by
      simp [tagOne, he]
    obtain ⟨e2, he2⟩ := fanOut_error_of_mem (tagOne ssm (tagKeyOf r))
      (keys r.readerProps.imports) rid hmem _ hop
    refine ⟨e2, ?_⟩
    unfold M
    rw [hrt]
    simp only [w] at he2 ⊢
    rw [he2]
    rfl
  · intro r hrt hmem e he hname
    have hop : (untagOne ssm (tagKeyOf r) rid).2 = Except.error
        { name := "Error"
          message := "Error releasing import " ++ rid ++ ": " ++ e.render } := by
      simp [untagOne, he, hname]
    obtain ⟨e2, he2⟩ := fanOut_error_of_mem (untagOne ssm (tagKeyOf r))
      (keys r.readerProps.imports) rid hmem _ hop
    refine ⟨e2, ?_⟩
    unfold M
    rw [hrt]
    simp only [x] at he2 ⊢
    rw [he2]
    rfl

/-- Witness for C3: the `InvalidResourceId` untag failure at `g` is treated
as success, and the `AccessDenied` tag failure at `b` rejects the Create
invocation over `{a: r1, b: r2}`. -/
theorem untag_absent_swallowed_witness :
    (untagOne failSSM "k" "g").2 = Except.ok () ∧
    ∃ e2, (M failSSM createReq).2 = Except.error e2 := by
  constructor
  · exact (untag_absent_swallowed_other_failures_wrapped failSSM "k" "g").1
      ⟨{ name := "InvalidResourceId", message := "gone" }, rfl, rfl⟩
  · exact (untag_absent_swallowed_other_failures_wrapped failSSM
      (tagKeyOf createReq) "b").2.2.2.1 createReq rfl (by decide)
      { name := "AccessDenied", message := "nope" } rfl

/-- The invocation outcome of the Create branch. -/
theorem M_create_snd (ssm : SSM) (r : ReaderRequest)
    (h : r.requestType = RequestType.Create) :
    (M ssm r).2 = (w ssm (keys r.readerProps.imports) (tagKeyOf r)).2.map
      (fun _ => some r.readerProps.imports) := by
  unfold M
  rw [h]

/-- The invocation outcome of the Delete branch. -/
theorem M_delete_snd (ssm : SSM) (r : ReaderRequest)
    (h : r.requestType = RequestType.Delete) :
    (M ssm r).2 = (x ssm (keys r.readerProps.imports) (tagKeyOf r)).2.map
      (fun _ => (none : Option (List (String × String)))) := by
  unfold M
  rw [h]

/-- The invocation outcome of the Update branch: the untag phase's failure, or
else the tag phase's outcome carrying `{Data: t}`. -/
theorem M_update_snd (ssm : SSM) (r : ReaderRequest)
    (h : r.requestType = RequestType.Update) :
    (M ssm r).2 =
      (match (x ssm (P (keys r.oldReaderProps.imports) (keys r.readerProps.imports))
          (tagKeyOf r)).2 with
      | Except.error u => Except.error u
      | Except.ok _ =>
          (w ssm (P (keys r.readerProps.imports) (keys r.oldReaderProps.imports))
            (tagKeyOf r)).2.map (fun _ => some r.readerProps.imports)) := by
  unfold M
  rw [h]
  simp only [untag_cond_eq]
  cases hx : (x ssm (P (keys r.oldReaderProps.imports) (keys r.readerProps.imports))
      (tagKeyOf r)).2 with
  | ok u => cases u; rfl
  | error e => rfl

/-- C4: a successful invocation returns `{Data: currentImportSet}` on Create
and on Update, and no output data on Delete. -/
theorem handler_return_value (ssm : SSM) (r : ReaderRequest)
    (res : Option (List (String × String)))
    (h : (M ssm r).2 = Except.ok res) :
    (r.requestType = RequestType.Create → res = some r.readerProps.imports) ∧
    (r.requestType = RequestType.Update → res = some r.readerProps.imports) ∧
    (r.requestType = RequestType.Delete → res = none) := by
  refine ⟨?_, ?_, ?_⟩ <;> intro hrt
  · rw [M_create_snd ssm r hrt] at h
    cases hw : (w ssm (keys r.readerProps.imports) (tagKeyOf r)).2 with
    | ok u => cases u; simp only [hw, Except.map] at h; exact (Except.ok.inj h).symm
    | error e => simp only [hw, Except.map] at h; exact absurd h (by simp)
  · rw [M_update_snd ssm r hrt] at h
    cases hx : (x ssm (P (keys r.oldReaderProps.imports) (keys r.readerProps.imports))
        (tagKeyOf r)).2 with
    | ok u =>
      cases u
      simp only [hx] at h
      cases hw : (w ssm (P (keys r.readerProps.imports) (keys r.oldReaderProps.imports))
          (tagKeyOf r)).2 with
      | ok v => cases v; simp only [hw, Except.map] at h; exact (Except.ok.inj h).symm
      | error e => simp only [hw, Except.map] at h; exact absurd h (by simp)
    | error e => simp only [hx] at h; exact absurd h (by simp)
  · rw [M_delete_snd ssm r hrt] at h
    cases hx : (x ssm (keys r.readerProps.imports) (tagKeyOf r)).2 with
    | ok u => cases u; simp only [hx, Except.map] at h; exact (Except.ok.inj h).symm
    | error e => simp only [hx, Except.map] at h; exact absurd h (by simp)

/-- Witness for C4, at the Create request over `{a: r1, b: r2}` with every
remote call succeeding. -/
theorem handler_return_value_witness :
    some [("a", "r1"), ("b", "r2")] = some createReq.readerProps.imports :=
  (handler_return_value okSSM createReq (some [("a", "r1"), ("b", "r2")]) rfl).1 rfl

end SsmReader


namespace PLimit

theorem listBefore_mem_left {i j : Nat} {l : List Nat} (h : listBefore i j l) :
    i ∈ l := by
  obtain ⟨l1, l2, l3, hl⟩ := h
  subst hl
  simp

theorem listBefore_mem_right {i j : Nat} {l : List Nat} (h : listBefore i j l) :
    j ∈ l := by
  obtain ⟨l1, l2, l3, hl⟩ := h
  subst hl
  simp

theorem listBefore_append {i j : Nat} {l m : List Nat} (h : listBefore i j l) :
    listBefore i j (l ++ m) := by
  obtain ⟨l1, l2, l3, hl⟩ := h
  subst hl
  exact ⟨l1, l2, l3 ++ m, by simp⟩

theorem listBefore_cons_elim {i j a : Nat} {rest : List Nat}
    (h : listBefore i j (a :: rest)) : a = i ∨ listBefore i j rest := by
  obtain ⟨l1, l2, l3, hl⟩ := h
  cases l1 with
  | nil =>
    left
    exact (List.cons.inj hl).1
  | cons b l1 =>
    right
    refine ⟨l1, l2, l3, ?_⟩
    simpa using (List.cons.inj hl).2

theorem wf_init : WF initState := by
  refine ⟨?_, ?_, ?_, ?_, ?_⟩ <;> simp [initState]

theorem wf_step {lim : Limit} {outcomes : Nat → Bool} {s1 s2 : LimiterState}
    (hwf : WF s1) (hs : Step lim outcomes s1 s2) : WF s2 := by
  cases hs with
  | submit =>
    refine ⟨?_, ?_, ?_, ?_, ?_⟩
    · intro a ha
      simp only [List.mem_append, List.mem_singleton] at ha
      rcases ha with ha | ha
      · exact Nat.lt_succ_of_lt (hwf.queue_lt a ha)
      · subst ha; exact Nat.lt_succ_self _
    · intro a ha
      exact Nat.lt_succ_of_lt (hwf.started_lt a ha)
    · refine List.Nodup.append hwf.queue_nodup (List.nodup_singleton _) ?_
      intro a ha hb
      simp only [List.mem_singleton] at hb
      subst hb
      exact absurd (hwf.queue_lt _ ha) (lt_irrefl _)
    · intro a ha
      simp only [List.mem_append, List.mem_singleton] at ha
      rcases ha with ha | ha
      · exact hwf.queue_started_disjoint a ha
      · subst ha
        intro hmem
        exact absurd (hwf.started_lt _ hmem) (lt_irrefl _)
    · exact hwf.active_eq
  | start k rest hq hadm =>
    have hqr : ∀ a ∈ rest, a ∈ s1.queue := by
      intro a ha; rw [hq]; exact List.mem_cons_of_mem _ ha
    have hknd : k ∉ rest := by
      have hnd := hwf.queue_nodup
      rw [hq] at hnd
      exact (List.nodup_cons.mp hnd).1
    refine ⟨?_, ?_, ?_, ?_, ?_⟩
    · intro a ha
      exact hwf.queue_lt a (hqr a ha)
    · intro a ha
      simp only [List.mem_cons] at ha
      rcases ha with ha | ha
      · subst ha
        exact hwf.queue_lt a (by rw [hq]; exact List.mem_cons_self _ _)
      · exact hwf.started_lt a ha
    · have hnd := hwf.queue_nodup
      rw [hq] at hnd
      exact (List.nodup_cons.mp hnd).2
    · intro a ha
      simp only [List.mem_cons, not_or]
      constructor
      · intro hak
        subst hak
        exact hknd ha
      · exact hwf.queue_started_disjoint a (hqr a ha)
    · have ha := hwf.active_eq
      simp only [List.length_cons]
      push_cast at ha ⊢
      omega
  | finish k hk =>
    have herase : (s1.running.erase k).length = s1.running.length - 1 :=
      List.length_erase_of_mem hk
    have hpos : 0 < s1.running.length := List.length_pos.mpr (by
      intro hnil
      rw [hnil] at hk
      simp at hk)
    have ha := hwf.active_eq
    cases hqe : s1.queue with
    | nil =>
      simp only [finishStep, hqe]
      refine ⟨?_, ?_, ?_, ?_, ?_⟩
      · intro a hmem; simp at hmem
      · intro a hmem; exact hwf.started_lt a hmem
      · simp
      · intro a hmem; simp at hmem
      · simp only [herase]
        push_cast at ha ⊢
        omega
    | cons y rest =>
      have hqr : ∀ a ∈ rest, a ∈ s1.queue := by
        intro a hmem; rw [hqe]; exact List.mem_cons_of_mem _ hmem
      have hynd : y ∉ rest := by
        have hnd := hwf.queue_nodup
        rw [hqe] at hnd
        exact (List.nodup_cons.mp hnd).1
      simp only [finishStep, hqe]
      refine ⟨?_, ?_, ?_, ?_, ?_⟩
      · intro a hmem
        exact hwf.queue_lt a (hqr a hmem)
      · intro a hmem
        simp only [List.mem_cons] at hmem
        rcases hmem with hmem | hmem
        · subst hmem
          exact hwf.queue_lt a (by rw [hqe]; exact List.mem_cons_self _ _)
        · exact hwf.started_lt a hmem
      · have hnd := hwf.queue_nodup
        rw [hqe] at hnd
        exact (List.nodup_cons.mp hnd).2
      · intro a hmem
        simp only [List.mem_cons, not_or]
        constructor
        · intro hay
          subst hay
          exact hynd hmem
        · exact hwf.queue_started_disjoint a (hqr a hmem)
      · simp only [List.length_cons, herase]
        push_cast at ha ⊢
        omega
  | clear =>
    refine ⟨?_, ?_, ?_, ?_, ?_⟩
    · intro a hmem; simp at hmem
    · intro a hmem; exact hwf.started_lt a hmem
    · simp
    · intro a hmem; simp at hmem
    · exact hwf.active_eq

theorem wf_reachable {lim : Limit} {outcomes : Nat → Bool} {st : LimiterState}
    (h : Reachable lim outcomes st) : WF st := by
  induction h with
  | refl => exact wf_init
  | tail hr hs ih => exact wf_step ih hs

theorem activeInv_init (lim : Limit) : ActiveInv lim initState := by
  refine ⟨by simp [initState], ?_⟩
  intro n _
  simp only [initState]
  exact Int.natCast_nonneg n

theorem activeInv_step {lim : Limit} {outcomes : Nat → Bool}
    {s1 s2 : LimiterState} (h1 : ActiveInv lim s1)
    (hs : Step lim outcomes s1 s2) : ActiveInv lim s2 := by
  obtain ⟨heq, hle⟩ := h1
  cases hs with
  | submit => exact ⟨heq, hle⟩
  | start k rest hq hadm =>
    constructor
    · simp only [List.length_cons]
      push_cast at heq ⊢
      omega
    · intro n hn
      subst hn
      simp only [canAdmit, decide_eq_true_eq] at hadm
      show s1.activeCount + 1 ≤ (n : Int)
      omega
  | finish k hk =>
    have herase : (s1.running.erase k).length = s1.running.length - 1 :=
      List.length_erase_of_mem hk
    have hpos : 0 < s1.running.length := List.length_pos.mpr (by
      intro hnil
      rw [hnil] at hk
      simp at hk)
    cases hqe : s1.queue with
    | nil =>
      simp only [finishStep, hqe]
      constructor
      · simp only [herase]
        omega
      · intro n hn
        have hb := hle n hn
        show s1.activeCount - 1 ≤ (n : Int)
        omega
    | cons y rest =>
      simp only [finishStep, hqe]
      constructor
      · simp only [List.length_cons, herase]
        push_cast at heq ⊢
        omega
      · intro n hn
        have hb := hle n hn
        show s1.activeCount - 1 + 1 ≤ (n : Int)
        omega
  | clear => exact ⟨heq, hle⟩

theorem activeInv_reachable {lim : Limit} {outcomes : Nat → Bool}
    {st : LimiterState} (h : Reachable lim outcomes st) : ActiveInv lim st := by
  induction h with
  | refl => exact activeInv_init lim
  | tail hr hs ih => exact activeInv_step ih hs

/-- C5: in every reachable state of a limiter, `0 ≤ activeCount`, and
`activeCount ≤ L` whenever the limit is a bounded `L`; in particular a
limiter constructed with the reconciler fan-out's cap (`S(10)`) never has
more than 10 operations in flight. -/
theorem limiter_active_count_bounds (lim : Limit) (outcomes : Nat → Bool) :
    (∀ st, Reachable lim outcomes st →
      0 ≤ st.activeCount ∧
        ∀ n, lim = Limit.bounded n → st.activeCount ≤ (n : Int)) ∧
    (∀ st, Reachable (Limit.bounded SsmReader.fanoutConcurrency) outcomes st →
      st.activeCount ≤ 10) := by
  constructor
  · intro st h
    have hainv := activeInv_reachable h
    constructor
    · rw [hainv.1]
      exact Int.natCast_nonneg _
    · exact hainv.2
  · intro st h
    have hainv := activeInv_reachable h
    have hb := hainv.2 SsmReader.fanoutConcurrency rfl
    simpa [SsmReader.fanoutConcurrency] using hb

theorem step_demoS1 :
    Step (Limit.bounded 1) (fun _ => true) initState demoS1 :=
  Step.submit initState

theorem reach_demoS2 : Reachable (Limit.bounded 1) (fun _ => true) demoS2 :=
  Relation.ReflTransGen.tail
    (Relation.ReflTransGen.tail Relation.ReflTransGen.refl step_demoS1)
    (Step.submit demoS1)

theorem reach_demoS2_to_demoS4 :
    Reaches (Limit.bounded 1) (fun _ => true) demoS2 demoS4 :=
  Relation.ReflTransGen.tail
    (Relation.ReflTransGen.tail Relation.ReflTransGen.refl
      (Step.start demoS2 0 [1] rfl (by decide)))
    (Step.finish demoS3 0 (by decide))

theorem reach_demoS4 : Reachable (Limit.bounded 1) (fun _ => true) demoS4 :=
  Relation.ReflTransGen.trans reach_demoS2 reach_demoS2_to_demoS4

/-- Witness for C5, at the state reached by submit, submit, start, settle
under limit 1. -/
theorem limiter_active_count_bounds_witness :
    0 ≤ demoS4.activeCount ∧
      ∀ n, Limit.bounded 1 = Limit.bounded n → demoS4.activeCount ≤ (n : Int) :=
  (limiter_active_count_bounds (Limit.bounded 1) (fun _ => true)).1 demoS4
    reach_demoS4

theorem fifoInv_step {lim : Limit} {outcomes : Nat → Bool} {i j : Nat}
    {s1 s2 : LimiterState} (h1 : FifoInv i j s1)
    (hs : Step lim outcomes s1 s2) : FifoInv i j s2 := by
  obtain ⟨hwf, hjlt, hdisj⟩ := h1
  refine ⟨wf_step hwf hs, ?_, ?_⟩
  · cases hs with
    | submit => exact Nat.lt_succ_of_lt hjlt
    | start k rest hq hadm => exact hjlt
    | finish k hk =>
      cases hqe : s1.queue <;> simp only [finishStep, hqe] <;> exact hjlt
    | clear => exact hjlt
  · cases hs with
    | submit =>
      rcases hdisj with hst | hbef | ⟨hq2, hst2⟩
      · exact Or.inl hst
      · exact Or.inr (Or.inl (listBefore_append hbef))
      · refine Or.inr (Or.inr ⟨?_, hst2⟩)
        simp only [List.mem_append, List.mem_singleton, not_or]
        exact ⟨hq2, by omega⟩
    | start k rest hq hadm =>
      rcases hdisj with hst | hbef | ⟨hq2, hst2⟩
      · exact Or.inl (List.mem_cons_of_mem _ hst)
      · rw [hq] at hbef
        rcases listBefore_cons_elim hbef with hki | hbef2
        · subst hki
          exact Or.inl (List.mem_cons_self _ _)
        · exact Or.inr (Or.inl hbef2)
      · rw [hq] at hq2
        simp only [List.mem_cons, not_or] at hq2
        refine Or.inr (Or.inr ⟨hq2.2, ?_⟩)
        simp only [List.mem_cons, not_or]
        exact ⟨hq2.1, hst2⟩
    | finish k hk =>
      cases hqe : s1.queue with
      | nil =>
        simp only [finishStep, hqe]
        rcases hdisj with hst | hbef | ⟨hq2, hst2⟩
        · exact Or.inl hst
        · rw [hqe] at hbef
          obtain ⟨l1, l2, l3, hl⟩ := hbef
          exact absurd hl.symm (by simp)
        · exact Or.inr (Or.inr ⟨by simp, hst2⟩)
      | cons y rest =>
        simp only [finishStep, hqe]
        rcases hdisj with hst | hbef | ⟨hq2, hst2⟩
        · exact Or.inl (List.mem_cons_of_mem _ hst)
        · rw [hqe] at hbef
          rcases listBefore_cons_elim hbef with hyi | hbef2
          · subst hyi
            exact Or.inl (List.mem_cons_self _ _)
          · exact Or.inr (Or.inl hbef2)
        · rw [hqe] at hq2
          simp only [List.mem_cons, not_or] at hq2
          refine Or.inr (Or.inr ⟨hq2.2, ?_⟩)
          simp only [List.mem_cons, not_or]
          exact ⟨hq2.1, hst2⟩
    | clear =>
      rcases hdisj with hst | hbef | ⟨hq2, hst2⟩
      · exact Or.inl hst
      · refine Or.inr (Or.inr ⟨by simp, ?_⟩)
        exact hwf.queue_started_disjoint j (listBefore_mem_right hbef)
      · exact Or.inr (Or.inr ⟨by simp, hst2⟩)

theorem fifoInv_reaches {lim : Limit} {outcomes : Nat → Bool} {i j : Nat}
    {s0 s : LimiterState} (h0 : FifoInv i j s0)
    (hr : Reaches lim outcomes s0 s) : FifoInv i j s := by
  induction hr with
  | refl => exact h0
  | tail hr hs ih => exact fifoInv_step ih hs

/-- C6: admission from the queue is FIFO.  If, in some reachable state, item
`i` sits in front of item `j` in the queue (both waiting at the same time),
then along every continuation `j` starts only after `i` has started: whenever
`j` is in the start history, so is `i`. -/
theorem limiter_fifo_admission (lim : Limit) (outcomes : Nat → Bool)
    (s0 s : LimiterState) (i j : Nat)
    (h0 : Reachable lim outcomes s0)
    (hb : listBefore i j s0.queue)
    (hr : Reaches lim outcomes s0 s)
    (hj : j ∈ s.started) : i ∈ s.started := by
  have hwf0 := wf_reachable h0
  have hinv0 : FifoInv i j s0 :=
    ⟨hwf0, hwf0.queue_lt j (listBefore_mem_right hb), Or.inr (Or.inl hb)⟩
  have hinv := fifoInv_reaches hinv0 hr
  rcases hinv.2.2 with hst | hbef | ⟨hq2, hst2⟩
  · exact hst
  · exact absurd hj
      (hinv.1.queue_started_disjoint j (listBefore_mem_right hbef))
  · exact absurd hj hst2

/-- Witness for C6: with limit 1, items 0 and 1 queued in this order, item 1
has started in the final demo state, and the theorem yields that item 0
started as well. -/
theorem limiter_fifo_admission_witness : (0 : Nat) ∈ demoS4.started :=
  limiter_fifo_admission (Limit.bounded 1) (fun _ => true) demoS2 demoS4 0 1
    reach_demoS2 ⟨[], [], [], rfl⟩ reach_demoS2_to_demoS4 (by decide)

/-- C7: a rejected operation is handled by the limiter exactly like a
successful one.  First, every settled future carries its own operation's
outcome (a rejection reaches only that item's future).  Second, replacing the
outcome assignment by any other yields a step to a state with identical
queue, running set, `activeCount`, start history and submission counter: the
limiter's internal state does not depend on operations' outcomes. -/
theorem limiter_failure_isolation (lim : Limit)
    (outcomes outcomes2 : Nat → Bool) :
    (∀ st, Reachable lim outcomes st → ∀ p ∈ st.results, p.2 = outcomes p.1) ∧
    (∀ s1 s2, Step lim outcomes s1 s2 → ∃ s3, Step lim outcomes2 s1 s3 ∧
      s3.queue = s2.queue ∧ s3.running = s2.running ∧
      s3.activeCount = s2.activeCount ∧ s3.started = s2.started ∧
      s3.nextId = s2.nextId) := by
  have hstep : ∀ s1 s2, (∀ p ∈ s1.results, p.2 = outcomes p.1) →
      Step lim outcomes s1 s2 → ∀ p ∈ s2.results, p.2 = outcomes p.1 := by
    intro s1 s2 hres hs
    cases hs with
    | submit => exact hres
    | start k rest hq hadm => exact hres
    | finish k hk =>
      intro p hp
      cases hqe : s1.queue with
      | nil =>
        simp only [finishStep, hqe, List.mem_cons] at hp
        rcases hp with hp | hp
        · subst hp; rfl
        · exact hres p hp
      | cons y rest =>
        simp only [finishStep, hqe, List.mem_cons] at hp
        rcases hp with hp | hp
        · subst hp; rfl
        · exact hres p hp
    | clear => exact hres
  constructor
  · intro st h
    induction h with
    | refl => intro p hp; simp [initState] at hp
    | tail hr hs ih => exact hstep _ _ ih hs
  · intro s1 s2 hs
    cases hs with
    | submit =>
      exact ⟨_, Step.submit s1, rfl, rfl, rfl, rfl, rfl⟩
    | start k rest hq hadm =>
      exact ⟨_, Step.start s1 k rest hq hadm, rfl, rfl, rfl, rfl, rfl⟩
    | finish k hk =>
      refine ⟨finishStep (outcomes2 k) k s1, Step.finish s1 k hk, ?_⟩
      cases hqe : s1.queue <;> simp [finishStep, hqe]
    | clear =>
      exact ⟨_, Step.clear s1, rfl, rfl, rfl, rfl, rfl⟩

/-- Witness for C7: the settled future of item 0 in the demo trace carries
item 0's own outcome, and the settle step of item 0 exists with the same
limiter-internal fields when item 0's outcome is flipped to a rejection. -/
theorem limiter_failure_isolation_witness :
    ((0, true) : Nat × Bool).2 = (fun _ : Nat => true) 0 ∧
    (∃ s3, Step (Limit.bounded 1) (fun _ : Nat => false) demoS3 s3 ∧
      s3.queue = demoS4.queue ∧ s3.running = demoS4.running ∧
      s3.activeCount = demoS4.activeCount ∧ s3.started = demoS4.started ∧
      s3.nextId = demoS4.nextId) := by
  obtain ⟨h1, h2⟩ :=
    limiter_failure_isolation (Limit.bounded 1) (fun _ => true) (fun _ => false)
  exact ⟨h1 demoS4 reach_demoS4 (0, true) (by decide),
    h2 demoS3 demoS4 (Step.finish demoS3 0 (by decide))⟩

theorem concurrencyCheck_error_iff (r : JSNumber) :
    (∃ msg, concurrencyCheck r = Except.error msg) ↔
      ¬(((r.isInteger || r == JSNumber.posInf) && r.gtZero) = true) := by
  unfold concurrencyCheck
  cases hb : ((r.isInteger || r == JSNumber.posInf) && r.gtZero) with
  | true => simp [hb]
  | false => simp [hb]

theorem concurrencyCheck_cond_iff (r : JSNumber) :
    ((r.isInteger || r == JSNumber.posInf) && r.gtZero) = true ↔
      ((∃ n : Nat, 0 < n ∧ r = JSNumber.val (n : ℚ)) ∨ r = JSNumber.posInf) := by
  cases r with
  | val q =>
    simp only [JSNumber.isInteger, JSNumber.gtZero, Bool.and_eq_true,
      Bool.or_eq_true, beq_iff_eq, decide_eq_true_eq]
    constructor
    · rintro ⟨hint | hco, hpos⟩
      · left
        have hnum : (q.num : ℚ) = q := by
          rw [← Rat.num_div_den q, hint]
          simp
        have hnumpos : 0 < q.num := Rat.num_pos.mpr hpos
        refine ⟨q.num.toNat, by omega, ?_⟩
        have hcast : ((q.num.toNat : Nat) : ℚ) = q := by
          have h1 : ((q.num.toNat : Int) : ℚ) = (q.num : ℚ) := by
            rw [Int.toNat_of_nonneg (le_of_lt hnumpos)]
          calc ((q.num.toNat : Nat) : ℚ) = ((q.num.toNat : Int) : ℚ) := by
                push_cast
                ring
            _ = (q.num : ℚ) := h1
            _ = q := hnum
        rw [hcast]
      · exact absurd hco (by simp)
    · rintro (⟨n, hn, hq⟩ | hq)
      · injection hq with hq2
        subst hq2
        constructor
        · left
          exact Rat.den_natCast n
        · exact_mod_cast hn
      · exact absurd hq (by simp)
  | posInf =>
    simp [JSNumber.isInteger, JSNumber.gtZero]
  | negInf =>
    simp [JSNumber.isInteger, JSNumber.gtZero]
  | nan =>
    simp [JSNumber.isInteger, JSNumber.gtZero]

/-- C8: the limiter factory rejects its concurrency argument (throwing the
`TypeError` of the source) exactly when the argument is neither a positive
integer nor `Infinity`; every positive integer and `Infinity` is accepted. -/
theorem limiter_invalid_configuration (r : JSNumber) :
    (∃ msg, concurrencyCheck r = Except.error msg) ↔
    ¬ ((∃ n : Nat, 0 < n ∧ r = JSNumber.val (n : ℚ)) ∨ r = JSNumber.posInf) := by
  rw [concurrencyCheck_error_iff]
  exact not_congr (concurrencyCheck_cond_iff r)

/-- Witness for C8: the fractional value 1/2 is rejected. -/
theorem limiter_invalid_configuration_witness :
    ∃ msg, concurrencyCheck (JSNumber.val (1 / 2)) = Except.error msg :=
  (limiter_invalid_configuration (JSNumber.val (1 / 2))).mpr (by
    rintro (⟨n, hn, hq⟩ | hq)
    · simp only [JSNumber.val.injEq] at hq
      have hden : ((n : ℚ)).den = 1 := Rat.den_natCast n
      rw [← hq] at hden
      norm_num at hden
    · exact absurd hq (by simp))

end PLimit

namespace GlueTask

theorem numberOfWorkersValidation_error_iff (n : Option JSNumber) (u : Bool) :
    numberOfWorkersValidation n u =
        Except.error "`numberOfWorkers` must be an integer greater than 0" ↔
      (optTruthy n && !u && (!optIsInteger n || optLtOne n)) = true := by
  unfold numberOfWorkersValidation
  cases hb : (optTruthy n && !u && (!optIsInteger n || optLtOne n)) with
  | true => simp [hb]
  | false => simp [hb]

/-- C9: the `GlueStartJobRun` constructor's `numberOfWorkers` validation
throws its error exactly when the value is a truthy number (a nonzero finite
value or an infinity — so neither absent, `0` nor `NaN`), is not an
unresolved token, and is not an integer or is smaller than 1; in particular
`0` and `NaN` never trigger it. -/
theorem number_of_workers_validation (n : Option JSNumber) (u : Bool) :
    (numberOfWorkersValidation n u =
        Except.error "`numberOfWorkers` must be an integer greater than 0" ↔
      (u = false ∧
        ((∃ q : ℚ, n = some (JSNumber.val q) ∧ q ≠ 0 ∧ (q.den ≠ 1 ∨ q < 1)) ∨
          n = some JSNumber.posInf ∨ n = some JSNumber.negInf))) ∧
    numberOfWorkersValidation (some (JSNumber.val 0)) u = Except.ok () ∧
    numberOfWorkersValidation (some JSNumber.nan) u = Except.ok () := by
  refine ⟨?_, rfl, rfl⟩
  rw [numberOfWorkersValidation_error_iff]
  cases u with
  | true => simp
  | false =>
    cases n with
    | none => simp [optTruthy]
    | some m =>
      cases m with
      | val q =>
        simp only [optTruthy, optIsInteger, optLtOne, JSNumber.truthy,
          JSNumber.isInteger, JSNumber.ltOne, Bool.not_false, Bool.and_true,
          Bool.and_eq_true, Bool.or_eq_true, Bool.not_eq_true',
          beq_eq_false_iff_ne, decide_eq_true_eq, ne_eq, Option.some.injEq,
          JSNumber.val.injEq, true_and]
        constructor
        · rintro ⟨h0, hc⟩
          exact Or.inl ⟨q, rfl, h0, hc⟩
        · rintro (⟨q2, hq2, h0, hc⟩ | h | h)
          · cases hq2
            exact ⟨h0, hc⟩
          · cases h
          · cases h
      | posInf =>
        simp [optTruthy, optIsInteger, optLtOne, JSNumber.truthy,
          JSNumber.isInteger, JSNumber.ltOne]
      | negInf =>
        simp [optTruthy, optIsInteger, optLtOne, JSNumber.truthy,
          JSNumber.isInteger, JSNumber.ltOne]
      | nan =>
        simp [optTruthy, optIsInteger, optLtOne, JSNumber.truthy,
          JSNumber.isInteger, JSNumber.ltOne]

/-- Witness for C9: `numberOfWorkers = -5` (a truthy resolved integer smaller
than 1) triggers the validation error. -/
theorem number_of_workers_validation_witness :
    numberOfWorkersValidation (some (JSNumber.val (-5))) false =
      Except.error "`numberOfWorkers` must be an integer greater than 0" :=
  (number_of_workers_validation (some (JSNumber.val (-5))) false).1.mpr
    ⟨rfl, Or.inl ⟨-5, rfl, by norm_num, Or.inr (by norm_num)⟩⟩

end GlueTask

namespace Route53

/-- C10 counterexample: with `weight: 300` and `region: "us-east-1"` strictly
more than one routing-policy property is defined, yet the constructor throws
the weight-range error, not the
`Only one of region, weight, multiValueAnswer, cidrRoutingConfig or
geoLocation can be defined` error: the claimed equivalence fails in the
right-to-left direction. -/
theorem record_set_only_one_counterexample :
    1 < nonSimpleRoutingPolicies badWeightProps ∧
    recordSetValidation badWeightProps =
      Except.error (RecordSetError.weightRange "300") ∧
    recordSetValidation badWeightProps ≠
      Except.error RecordSetError.onlyOneRoutingPolicy ∧
    (RecordSetError.weightRange "300").message ≠
      RecordSetError.onlyOneRoutingPolicy.message := by
  refine ⟨by decide, rfl, ?_, by decide⟩
  intro h
  rw [show recordSetValidation badWeightProps =
    Except.error (RecordSetError.weightRange "300") from rfl] at h
  exact RecordSetError.noConfusion (Except.error.inj h)

/-- C10 (amended): the `RecordSet` constructor throws the
`Only one of region, weight, multiValueAnswer, cidrRoutingConfig or
geoLocation can be defined` error exactly when strictly more than one of
`geoLocation`, `region`, `weight`, `multiValueAnswer`, `cidrRoutingConfig` is
defined AND none of the earlier validations (weight range, setIdentifier
length, setIdentifier on a simple routing policy, multiValueAnswer with an
alias target) throws first; in particular, with at most one of the five
defined, this check passes. -/
theorem record_set_only_one_amended (p : RecordSetProps) :
    (recordSetValidation p = Except.error RecordSetError.onlyOneRoutingPolicy ↔
      (1 < nonSimpleRoutingPolicies p ∧
        (weightTruthy p && (weightLtZero p || weightGtMax p)) = false ∧
        (setIdentifierTruthy p &&
          (decide (setIdentifierLen p < 1) || decide (128 < setIdentifierLen p))) = false ∧
        (setIdentifierTruthy p && p.weight == none && !p.geoLocation.isSome &&
          !regionTruthy p && !mvaTruthy p && !p.cidrRoutingConfig.isSome) = false ∧
        (mvaTruthy p && p.targetHasAlias) = false)) ∧
    (nonSimpleRoutingPolicies p ≤ 1 →
      recordSetValidation p ≠ Except.error RecordSetError.onlyOneRoutingPolicy) := by
  have hmain : recordSetValidation p =
      Except.error RecordSetError.onlyOneRoutingPolicy ↔
      (1 < nonSimpleRoutingPolicies p ∧
        (weightTruthy p && (weightLtZero p || weightGtMax p)) = false ∧
        (setIdentifierTruthy p &&
          (decide (setIdentifierLen p < 1) || decide (128 < setIdentifierLen p))) = false ∧
        (setIdentifierTruthy p && p.weight == none && !p.geoLocation.isSome &&
          !regionTruthy p && !mvaTruthy p && !p.cidrRoutingConfig.isSome) = false ∧
        (mvaTruthy p && p.targetHasAlias) = false) := by
    unfold recordSetValidation
    cases h1 : (weightTruthy p && (weightLtZero p || weightGtMax p)) with
    | true =>
      simp only [h1, if_true]
      constructor
      · intro h
        exact absurd (Except.error.inj h) (by intro hh; cases hh)
      · rintro ⟨-, hfalse, -, -, -⟩
        cases hfalse
    | false =>
      simp only [h1, Bool.false_eq_true, if_false]
      cases h2 : (setIdentifierTruthy p &&
          (decide (setIdentifierLen p < 1) || decide (128 < setIdentifierLen p))) with
      | true =>
        simp only [h2, if_true]
        constructor
        · intro h
          exact absurd (Except.error.inj h) (by intro hh; cases hh)
        · rintro ⟨-, -, hfalse, -, -⟩
          cases hfalse
      | false =>
        simp only [h2, Bool.false_eq_true, if_false]
        cases h3 : (setIdentifierTruthy p && p.weight == none && !p.geoLocation.isSome &&
            !regionTruthy p && !mvaTruthy p && !p.cidrRoutingConfig.isSome) with
        | true =>
          simp only [h3, if_true]
          constructor
          · intro h
            exact absurd (Except.error.inj h) (by intro hh; cases hh)
          · rintro ⟨-, -, -, hfalse, -⟩
            cases hfalse
        | false =>
          simp only [h3, Bool.false_eq_true, if_false]
          cases h4 : (mvaTruthy p && p.targetHasAlias) with
          | true =>
            simp only [h4, if_true]
            constructor
            · intro h
              exact absurd (Except.error.inj h) (by intro hh; cases hh)
            · rintro ⟨-, -, -, -, hfalse⟩
              cases hfalse
          | false =>
            simp only [h4, Bool.false_eq_true, if_false]
            by_cases h5 : 1 < nonSimpleRoutingPolicies p
            · simp only [if_pos h5]
              simp [h5]
            · simp only [if_neg h5]
              simp [h5]
  refine ⟨hmain, ?_⟩
  intro hle h
  have := (hmain.mp h).1
  omega

/-- Witness for C10 (amended): with no routing-policy property defined the
check passes. -/
theorem record_set_only_one_amended_witness :
    recordSetValidation
        { geoLocation := none, region := none, weight := none,
          multiValueAnswer := none, cidrRoutingConfig := none,
          setIdentifier := none, targetHasAlias := false } ≠
      Except.error RecordSetError.onlyOneRoutingPolicy :=
  (record_set_only_one_amended
      { geoLocation := none, region := none, weight := none,
        multiValueAnswer := none, cidrRoutingConfig := none,
        setIdentifier := none, targetHasAlias := false }).2 (by decide)

end Route53
